import Mathlib

/-!
Verification of the Borsh account coder (`src/ts/src/coder/borsh/accounts.ts`).

The development shallowly embeds the two classes of the source file,
`BorshAccountsCoder` and `BorshAccountHeader`, together with executable
models of their three external dependencies:

* `js-sha256` — a full executable SHA-256 over byte lists (`SHA256.digestBytes`);
* `bs58` — base58 encoding with the Bitcoin alphabet (`bs58encode`);
* `camelcase` with the pascalCase option — modelled for ASCII
  alphanumeric-and-separator inputs (`camelcasePascal`).

Bytes are `Nat`s (each < 256 for real data); buffers are `List Nat`.
Fallible TS methods (which `throw`) become `Except CoderError` values.
The per-type `Layout` capability of `buffer-layout` is kept abstract, as
in the specification: an encoder to bytes and a partial decoder.
-/

namespace Anchor

/-! ### SHA-256 (model of the `js-sha256` dependency)

A direct implementation of FIPS 180-4 SHA-256 over byte lists. All
recursions are structural (fuelled where needed) so that the kernel can
evaluate digests inside `decide` / `rfl` proofs. -/

namespace SHA256

/-- Truncate to a 32-bit word. -/
def w32 (x : Nat) : Nat := x % 4294967296

/-- Right-rotate a 32-bit word by `n` (for `0 < n < 32`). -/
def rotr (n x : Nat) : Nat := w32 ((x >>> n) ||| (x <<< (32 - n)))

/-- Bitwise complement of a 32-bit word. -/
def compl32 (x : Nat) : Nat := x ^^^ 4294967295

/-- The SHA-256 choice function. -/
def ch (x y z : Nat) : Nat := (x &&& y) ^^^ (compl32 x &&& z)

/-- The SHA-256 majority function. -/
def maj (x y z : Nat) : Nat := (x &&& y) ^^^ (x &&& z) ^^^ (y &&& z)

/-- Big sigma-0. -/
def bsig0 (x : Nat) : Nat := rotr 2 x ^^^ rotr 13 x ^^^ rotr 22 x

/-- Big sigma-1. -/
def bsig1 (x : Nat) : Nat := rotr 6 x ^^^ rotr 11 x ^^^ rotr 25 x

/-- Small sigma-0. -/
def ssig0 (x : Nat) : Nat := rotr 7 x ^^^ rotr 18 x ^^^ (x >>> 3)

/-- Small sigma-1. -/
def ssig1 (x : Nat) : Nat := rotr 17 x ^^^ rotr 19 x ^^^ (x >>> 10)

/-- The 64 SHA-256 round constants (FIPS 180-4, in decimal). -/
def roundK : List Nat :=
  [1116352408, 1899447441, 3049323471, 3921009573,
   961987163, 1508970993, 2453635748, 2870763221,
   3624381080, 310598401, 607225278, 1426881987,
   1925078388, 2162078206, 2614888103, 3248222580,
   3835390401, 4022224774, 264347078, 604807628,
   770255983, 1249150122, 1555081692, 1996064986,
   2554220882, 2821834349, 2952996808, 3210313671,
   3336571891, 3584528711, 113926993, 338241895,
   666307205, 773529912, 1294757372, 1396182291,
   1695183700, 1986661051, 2177026350, 2456956037,
   2730485921, 2820302411, 3259730800, 3345764771,
   3516065817, 3600352804, 4094571909, 275423344,
   430227734, 506948616, 659060556, 883997877,
   958139571, 1322822218, 1537002063, 1747873779,
   1955562222, 2024104815, 2227730452, 2361852424,
   2428436474, 2756734187, 3204031479, 3329325298]

/-- Working state: the eight 32-bit hash registers. -/
structure Hash8 where
  a : Nat
  b : Nat
  c : Nat
  d : Nat
  e : Nat
  f : Nat
  g : Nat
  h : Nat
  deriving DecidableEq

/-- The SHA-256 initial hash value (FIPS 180-4, in decimal). -/
def h0 : Hash8 :=
  ⟨1779033703, 3144134277, 1013904242, 2773480762,
   1359893119, 2600822924, 528734635, 1541459225⟩

/-- Pack big-endian bytes into 32-bit words, four at a time. -/
def toWords : List Nat → List Nat
  | a :: b :: c :: d :: rest =>
    (a * 16777216 + b * 65536 + c * 256 + d) :: toWords rest
  | _ => []

/-- One extension step of the message schedule: append `W[i]` where `i`
is the current length of the schedule. -/
def scheduleStep (acc : List Nat) : List Nat :=
  let i := acc.length
  acc ++ [w32 (ssig1 (acc.getD (i - 2) 0) + acc.getD (i - 7) 0 +
               ssig0 (acc.getD (i - 15) 0) + acc.getD (i - 16) 0)]

/-- Extend the 16 block words to the 64-entry message schedule. -/
def schedule (ws : List Nat) : List Nat :=
  (List.range 48).foldl (fun acc _ => scheduleStep acc) ws

/-- One compression round with round constant `ki` and schedule word `wi`. -/
def round (st : Hash8) (ki wi : Nat) : Hash8 :=
  let t1 := w32 (st.h + bsig1 st.e + ch st.e st.f st.g + ki + wi)
  let t2 := w32 (bsig0 st.a + maj st.a st.b st.c)
  ⟨w32 (t1 + t2), st.a, st.b, st.c, w32 (st.d + t1), st.e, st.f, st.g⟩

/-- Compress one 64-byte block into the running hash value. -/
def compress (hs : Hash8) (block : List Nat) : Hash8 :=
  let ws := schedule (toWords block)
  let st := (roundK.zip ws).foldl (fun s p => round s p.1 p.2) hs
  ⟨w32 (hs.a + st.a), w32 (hs.b + st.b), w32 (hs.c + st.c), w32 (hs.d + st.d),
   w32 (hs.e + st.e), w32 (hs.f + st.f), w32 (hs.g + st.g), w32 (hs.h + st.h)⟩

/-- The 8-byte big-endian encoding of a (64-bit) number. -/
def beBytes8 (n : Nat) : List Nat :=
  [n >>> 56 % 256, n >>> 48 % 256, n >>> 40 % 256, n >>> 32 % 256,
   n >>> 24 % 256, n >>> 16 % 256, n >>> 8 % 256, n % 256]

/-- Standard SHA-256 padding: `0x80`, zeros, then the bit length, to a
multiple of 64 bytes. -/
def pad (ms : List Nat) : List Nat :=
  ms ++ [128] ++ List.replicate ((64 - ((ms.length + 9) % 64)) % 64) 0 ++
    beBytes8 (8 * ms.length)

/-- Split into 64-byte blocks; the fuel argument bounds the recursion and
any fuel of at least the list length is enough. -/
def chunks64 : Nat → List Nat → List (List Nat)
  | 0, _ => []
  | _ + 1, [] => []
  | fuel + 1, l => l.take 64 :: chunks64 fuel (l.drop 64)

/-- The four big-endian bytes of a 32-bit word. -/
def wordBytes (w : Nat) : List Nat :=
  [w >>> 24 % 256, w >>> 16 % 256, w >>> 8 % 256, w % 256]

/-- SHA-256 digest of a byte list: 32 bytes. -/
def digestBytes (ms : List Nat) : List Nat :=
  let padded := pad ms
  let hf := (chunks64 padded.length padded).foldl compress h0
  wordBytes hf.a ++ wordBytes hf.b ++ wordBytes hf.c ++ wordBytes hf.d ++
    wordBytes hf.e ++ wordBytes hf.f ++ wordBytes hf.g ++ wordBytes hf.h

end SHA256

/-- SHA-256 of an ASCII string, as the source's `sha256.digest(str)`: the
string's bytes (code points, all inputs here being ASCII) are hashed. -/
def sha256Ascii (s : String) : List Nat :=
  SHA256.digestBytes (s.toList.map Char.toNat)

/-- A SHA-256 digest always has 32 bytes. -/
theorem sha256Ascii_length (s : String) : (sha256Ascii s).length = 32 := by
  simp [sha256Ascii, SHA256.digestBytes, SHA256.wordBytes]

/-- Known-answer test: the NIST test vector for `sha256("abc")`. -/
theorem sha256_kat_abc :
    sha256Ascii "abc" =
      [0xba, 0x78, 0x16, 0xbf, 0x8f, 0x01, 0xcf, 0xea,
       0x41, 0x41, 0x40, 0xde, 0x5d, 0xae, 0x22, 0x23,
       0xb0, 0x03, 0x61, 0xa3, 0x96, 0x17, 0x7a, 0x9c,
       0xb4, 0x10, 0xff, 0x61, 0xf2, 0x00, 0x15, 0xad] := by
  decide

/-- Known-answer test: the digest of the empty message. -/
theorem sha256_kat_empty :
    sha256Ascii "" =
      [0xe3, 0xb0, 0xc4, 0x42, 0x98, 0xfc, 0x1c, 0x14,
       0x9a, 0xfb, 0xf4, 0xc8, 0x99, 0x6f, 0xb9, 0x24,
       0x27, 0xae, 0x41, 0xe4, 0x64, 0x9b, 0x93, 0x4c,
       0xa4, 0x95, 0x99, 0x1b, 0x78, 0x52, 0xb8, 0x55] := by
  decide

/-! ### Pascal case (model of the `camelcase` dependency)

The source canonicalizes type names with `camelcase(name, pascalCase)`,
an external npm package. We model its behavior on the inputs the coder
sees — ASCII alphanumeric names with the separators `-`, `_`, `.` and
space: the name is split into words at separators and at
lower-or-digit→upper boundaries, every word is lowercased and then has
its first letter capitalized, and the words are concatenated. -/

/-- ASCII uppercase letter test. -/
def isAsciiUpper (c : Char) : Bool := 'A' ≤ c && c ≤ 'Z'

/-- ASCII lowercase letter test. -/
def isAsciiLower (c : Char) : Bool := 'a' ≤ c && c ≤ 'z'

/-- ASCII digit test. -/
def isAsciiDigit (c : Char) : Bool := '0' ≤ c && c ≤ '9'

/-- Word separators recognized by the camelcase package. -/
def isWordSep (c : Char) : Bool := c = '-' || c = '_' || c = '.' || c = ' '

/-- Lowercase an ASCII letter, identity elsewhere. -/
def asciiLower (c : Char) : Char :=
  if isAsciiUpper c then Char.ofNat (c.toNat + 32) else c

/-- Uppercase an ASCII letter, identity elsewhere. -/
def asciiUpper (c : Char) : Char :=
  if isAsciiLower c then Char.ofNat (c.toNat - 32) else c

/-- Split into words: `cur` is the current word, reversed. A new word
starts after a separator and before an uppercase letter that follows a
lowercase letter or digit. -/
def splitWordsAux : List Char → List Char → List (List Char)
  | cur, [] => [cur.reverse]
  | cur, c :: rest =>
    if isWordSep c then cur.reverse :: splitWordsAux [] rest
    else if isAsciiUpper c &&
        (match cur with
         | p :: _ => isAsciiLower p || isAsciiDigit p
         | [] => false) then
      cur.reverse :: splitWordsAux [c] rest
    else splitWordsAux (c :: cur) rest

/-- Lowercase a word and capitalize its first letter. -/
def capitalizeWord : List Char → List Char
  | [] => []
  | c :: rest => asciiUpper (asciiLower c) :: rest.map asciiLower

/-- Model of `camelcase(s, pascalCase)` for ASCII inputs. -/
def camelcasePascal (s : String) : String :=
  String.mk ((((splitWordsAux [] s.toList).filter
    (fun w => !w.isEmpty)).map capitalizeWord).flatten)

/-- Sanity: lower-camel and Pascal spellings canonicalize identically. -/
theorem camelcasePascal_myAccount :
    camelcasePascal "myAccount" = "MyAccount" ∧
      camelcasePascal "MyAccount" = "MyAccount" ∧
      camelcasePascal "my_account" = "MyAccount" ∧
      camelcasePascal "counter" = "Counter" := by
  refine ⟨?_, ?_, ?_, ?_⟩ <;> decide

/-! ### Base58 (model of the `bs58` dependency) -/

/-- The Bitcoin base58 alphabet used by `bs58`. -/
def b58Alphabet : List Char :=
  "123456789ABCDEFGHJKLMNPQRSTUVWXYZabcdefghijkmnopqrstuvwxyz".toList

/-- Little-endian base58 digits of a number; fuel bounds the recursion
and any fuel of at least `n` is enough. -/
def b58Digits : Nat → Nat → List Char
  | 0, _ => []
  | fuel + 1, n =>
    if n = 0 then []
    else b58Alphabet.getD (n % 58) '1' :: b58Digits fuel (n / 58)

/-- Number of leading zero bytes, each encoded as a `'1'`. -/
def countLeadingZeros : List Nat → Nat
  | [] => 0
  | b :: rest => if b = 0 then countLeadingZeros rest + 1 else 0

/-- Big-endian value of a byte list. -/
def bytesToNatBE (bs : List Nat) : Nat :=
  bs.foldl (fun acc b => acc * 256 + b) 0

/-- Base58 encoding of a byte list (the `bs58.encode` of the source):
one `'1'` per leading zero byte, then the base58 digits of the value. -/
def bs58encode (bs : List Nat) : String :=
  String.mk (List.replicate (countLeadingZeros bs) '1' ++
    (b58Digits (bytesToNatBE bs) (bytesToNatBE bs)).reverse)

/-- Sanity: a leading zero byte becomes `'1'`; the byte value 58 is
carried as the two digits `"21"`. -/
theorem bs58encode_example :
    bs58encode [0] = "1" ∧ bs58encode [58] = "21" := by
  exact ⟨by decide, by decide⟩

/-! ### Data model

The IDL (schema) and the per-type `Layout` capability. The layout for a
declared account is built by the external `IdlCoder.typeDefLayout`; per
the specification it is a black box, so the embedding carries each
declared account's name directly together with its derived layout. -/

/-- The black-box per-type layout capability of `buffer-layout`:
`encode` yields the bytes the layout writes (their count is the
`bytesWritten` the TS API returns) and `decode` parses a value back or
fails. -/
structure Layout (V : Type) where
  encode : V → List Nat
  decode : List Nat → Option V

/-- The schema: the declared account types (absent when the IDL has no
`accounts` field) with their derived layouts, and the optional
`layoutVersion` marker selecting the versioned header format. -/
structure Idl (V : Type) where
  accounts : Option (List (String × Layout V))
  layoutVersion : Option Nat

/-- Lookup in a TS `Map` built from an entry list: for a duplicated key
`new Map` keeps the last entry, hence the reversal. -/
def mapGet {V : Type} (m : List (String × V)) (k : String) : Option V :=
  m.reverse.lookup k

/-- Errors thrown by the coder's methods. `typeError` is the JS
`TypeError` raised when a method dereferences the `header` field that
the constructor left unassigned (IDL without an `accounts` field);
`layoutFailure` stands for any exception out of the black-box layout
decoder. -/
inductive CoderError where
  | unknownAccount (name : String)
  | invalidDiscriminator
  | bufferOverflow
  | typeError
  | layoutFailure
  deriving DecidableEq

/-- Number of bytes of the account header (source constant
`ACCOUNT_HEADER_SIZE`). -/
def ACCOUNT_HEADER_SIZE : Nat := 8

/-- Number of bytes of the account discriminator in the versioned
format (source constant `ACCOUNT_DISCRIMINATOR_SIZE`). -/
def ACCOUNT_DISCRIMINATOR_SIZE : Nat := 4

/-- Discriminator size of the legacy format (source constant
`DEPRECATED_ACCOUNT_DISCRIMINATOR_SIZE`). -/
def DEPRECATED_ACCOUNT_DISCRIMINATOR_SIZE : Nat := 8

/-! ### `BorshAccountHeader` (`accounts.ts` lines 106-172) -/

/-- Header codec: holds the IDL it was constructed with. -/
structure BorshAccountHeader (V : Type) where
  idl : Idl V

/-- Byte size of the account header (static method `size()`). -/
def BorshAccountHeader.size : Nat := ACCOUNT_HEADER_SIZE

/-- Discriminator size for the active format (`discriminatorSize()`):
8 when `layoutVersion` is undefined (legacy), else 4. -/
def BorshAccountHeader.discriminatorSize {V : Type}
    (hd : BorshAccountHeader V) : Nat :=
  match hd.idl.layoutVersion with
  | none => DEPRECATED_ACCOUNT_DISCRIMINATOR_SIZE
  | some _ => ACCOUNT_DISCRIMINATOR_SIZE

/-- The discriminator of an account name (`discriminator(name,
nameSpace?)`): SHA-256 of `"<nameSpace or account>:<PascalCase name>"`,
truncated to the active discriminator size. -/
def BorshAccountHeader.discriminator {V : Type} (hd : BorshAccountHeader V)
    (name : String) (nameSpace : Option String) : List Nat :=
  (sha256Ascii ((nameSpace.getD "account") ++ ":" ++
    camelcasePascal name)).take hd.discriminatorSize

/-- Header bytes for an account name (`encode(accountName,
nameSpace?)`): the discriminator alone in the legacy format, or
version byte, bump byte, 4-byte discriminator and two unused bytes in
the versioned format. -/
def BorshAccountHeader.encode {V : Type} (hd : BorshAccountHeader V)
    (accountName : String) (nameSpace : Option String) : List Nat :=
  match hd.idl.layoutVersion with
  | none => hd.discriminator accountName nameSpace
  | some _ =>
    [0] ++ [0] ++ hd.discriminator accountName nameSpace ++ [0, 0]

/-- Byte offset of the discriminator inside the header
(`discriminatorOffset()`): 0 legacy, 2 versioned. -/
def BorshAccountHeader.discriminatorOffset {V : Type}
    (hd : BorshAccountHeader V) : Nat :=
  match hd.idl.layoutVersion with
  | none => 0
  | some _ => 2

/-- Extract the discriminator bytes from account data
(`parseDiscriminator(data)`): `data.slice(0, 8)` legacy,
`data.slice(2, 6)` versioned. As in JS, a short input yields a
truncated slice, never an error. -/
def BorshAccountHeader.parseDiscriminator {V : Type}
    (hd : BorshAccountHeader V) (data : List Nat) : List Nat :=
  match hd.idl.layoutVersion with
  | none => data.take 8
  | some _ => (data.drop 2).take 4

/-! ### `BorshAccountsCoder` (`accounts.ts` lines 26-104) -/

/-- The account coder's state after construction: the layout registry,
and the `header` field, which the constructor leaves unassigned
(`none`) when the IDL has no `accounts` field. -/
structure BorshAccountsCoder (V : Type) where
  accountLayouts : List (String × Layout V)
  header : Option (BorshAccountHeader V)

/-- The constructor: with no `accounts` field it installs an empty
registry and returns early, leaving `header` unassigned; otherwise it
registers every declared account's layout and builds the header codec
from the IDL. -/
def BorshAccountsCoder.ofIdl {V : Type} (idl : Idl V) :
    BorshAccountsCoder V :=
  match idl.accounts with
  | none => ⟨[], none⟩
  | some accs => ⟨accs, some ⟨idl⟩⟩

/-- `encode(accountName, account)`: serialize into a fixed 1000-byte
scratch buffer after the registry lookup — a body longer than 1000
bytes overruns the buffer and the layout's write throws — then return
header ++ body, the body sliced to exactly the written length. -/
def BorshAccountsCoder.encode {V : Type} (c : BorshAccountsCoder V)
    (accountName : String) (account : V) : Except CoderError (List Nat) :=
  match mapGet c.accountLayouts accountName with
  | none => .error (.unknownAccount accountName)
  | some layout =>
    if 1000 < (layout.encode account).length then .error .bufferOverflow
    else
      match c.header with
      | none => .error .typeError
      | some hd => .ok (hd.encode accountName none ++ layout.encode account)

/-- `decodeUnchecked(accountName, ix)`: chop off the 8-byte header,
then decode the remainder with the account's layout; unknown account
names fail, and no discriminator check is performed. -/
def BorshAccountsCoder.decodeUnchecked {V : Type} (c : BorshAccountsCoder V)
    (accountName : String) (ix : List Nat) : Except CoderError V :=
  let data := ix.drop BorshAccountHeader.size
  match mapGet c.accountLayouts accountName with
  | none => .error (.unknownAccount accountName)
  | some layout =>
    match layout.decode data with
    | none => .error .layoutFailure
    | some v => .ok v

/-- `decode(accountName, data)`: compare the expected discriminator of
the name with the one parsed from the data (`Buffer.compare` is zero
exactly on byte-for-byte equality) and throw on mismatch, else defer to
`decodeUnchecked`. Dereferencing `header` comes first, so a coder with
an unassigned header throws a `TypeError` here. -/
def BorshAccountsCoder.decode {V : Type} (c : BorshAccountsCoder V)
    (accountName : String) (data : List Nat) : Except CoderError V :=
  match c.header with
  | none => .error .typeError
  | some hd =>
    if hd.discriminator accountName none = hd.parseDiscriminator data then
      c.decodeUnchecked accountName data
    else .error .invalidDiscriminator

/-- The descriptor returned by `memcmp`: the byte offset to match at
and the base58-encoded bytes to match. -/
structure MemcmpFilter where
  offset : Nat
  bytes : String
  deriving DecidableEq

/-- `memcmp(accountName)`: the filter descriptor for the external
query mechanism. It computes the discriminator directly — without any
registry lookup — so it only throws when `header` is unassigned. -/
def BorshAccountsCoder.memcmp {V : Type} (c : BorshAccountsCoder V)
    (accountName : String) : Except CoderError MemcmpFilter :=
  match c.header with
  | none => .error .typeError
  | some hd =>
    .ok ⟨hd.discriminatorOffset, bs58encode (hd.discriminator accountName none)⟩

/-- Decidable equality of results, so concrete runs can be settled by
`decide`. -/
instance {ε α : Type} [DecidableEq ε] [DecidableEq α] :
    DecidableEq (Except ε α) := fun x y =>
  match x, y with
  | .ok a, .ok b =>
    if h : a = b then isTrue (by rw [h])
    else isFalse (fun hh => h (Except.ok.inj hh))
  | .error a, .error b =>
    if h : a = b then isTrue (by rw [h])
    else isFalse (fun hh => h (Except.error.inj hh))
  | .ok _, .error _ => isFalse (fun hh => Except.noConfusion hh)
  | .error _, .ok _ => isFalse (fun hh => Except.noConfusion hh)

/-! ### Basic header facts -/

/-- The discriminator has exactly `discriminatorSize` bytes. -/
theorem discriminator_length {V : Type} (hd : BorshAccountHeader V)
    (name : String) (ns : Option String) :
    (hd.discriminator name ns).length = hd.discriminatorSize := by
  have h32 := sha256Ascii_length ((ns.getD "account") ++ ":" ++ camelcasePascal name)
  unfold BorshAccountHeader.discriminator
  rw [List.length_take, h32]
  cases hv : hd.idl.layoutVersion <;>
    simp [BorshAccountHeader.discriminatorSize, hv,
      DEPRECATED_ACCOUNT_DISCRIMINATOR_SIZE, ACCOUNT_DISCRIMINATOR_SIZE]

/-- Legacy format: discriminators have 8 bytes. -/
theorem discriminatorSize_legacy {V : Type} (hd : BorshAccountHeader V)
    (hv : hd.idl.layoutVersion = none) : hd.discriminatorSize = 8 := by
  simp [BorshAccountHeader.discriminatorSize, hv,
    DEPRECATED_ACCOUNT_DISCRIMINATOR_SIZE]

/-- Versioned format: discriminators have 4 bytes. -/
theorem discriminatorSize_versioned {V : Type} (hd : BorshAccountHeader V)
    (ver : Nat) (hv : hd.idl.layoutVersion = some ver) :
    hd.discriminatorSize = 4 := by
  simp [BorshAccountHeader.discriminatorSize, hv, ACCOUNT_DISCRIMINATOR_SIZE]

/-- The encoded header always has exactly 8 bytes, in both formats. -/
theorem headerEncode_length {V : Type} (hd : BorshAccountHeader V)
    (name : String) (ns : Option String) :
    (hd.encode name ns).length = 8 := by
  have hdisc := discriminator_length hd name ns
  cases hv : hd.idl.layoutVersion with
  | none =>
    have h8 := discriminatorSize_legacy hd hv
    simp [BorshAccountHeader.encode, hv, hdisc, h8]
  | some ver =>
    have h4 := discriminatorSize_versioned hd ver hv
    simp [BorshAccountHeader.encode, hv, hdisc, h4]

/-- Parsing the discriminator out of an encoded header (with any body
appended) recovers the discriminator, in both formats. -/
theorem parse_headerEncode {V : Type} (hd : BorshAccountHeader V)
    (name : String) (ns : Option String) (body : List Nat) :
    hd.parseDiscriminator (hd.encode name ns ++ body) =
      hd.discriminator name ns := by
  have hdisc := discriminator_length hd name ns
  cases hv : hd.idl.layoutVersion with
  | none =>
    have h8 := discriminatorSize_legacy hd hv
    rw [h8] at hdisc
    simp only [BorshAccountHeader.parseDiscriminator, BorshAccountHeader.encode, hv]
    exact List.take_left' hdisc
  | some ver =>
    have h4 := discriminatorSize_versioned hd ver hv
    rw [h4] at hdisc
    simp only [BorshAccountHeader.parseDiscriminator, BorshAccountHeader.encode, hv]
    have hshape :
        (([0] ++ [0] ++ hd.discriminator name ns ++ [0, 0]) ++ body).drop 2 =
          hd.discriminator name ns ++ ([0, 0] ++ body) := by
      simp
    rw [hshape]
    exact List.take_left' hdisc

/-- Dropping the header size off an encoded header plus body leaves the
body. -/
theorem drop_headerEncode {V : Type} (hd : BorshAccountHeader V)
    (name : String) (ns : Option String) (body : List Nat) :
    (hd.encode name ns ++ body).drop BorshAccountHeader.size = body := by
  have h8 := headerEncode_length hd name ns
  exact List.drop_left' h8

/-- Decoding with an unregistered name (and an initialized header)
reports the unknown account only when the data happens to carry the
name's own discriminator; otherwise the discriminator check fires
first. -/
theorem decode_unregistered {V : Type} (idl : Idl V)
    (accs : List (String × Layout V)) (hacc : idl.accounts = some accs)
    (name : String) (data : List Nat) (hunreg : mapGet accs name = none) :
    (BorshAccountsCoder.ofIdl idl).decode name data =
      (if (BorshAccountHeader.mk idl).discriminator name none =
          (BorshAccountHeader.mk idl).parseDiscriminator data
       then .error (.unknownAccount name)
       else .error .invalidDiscriminator) := by
  unfold BorshAccountsCoder.decode BorshAccountsCoder.ofIdl
  rw [hacc]
  simp only []
  split
  · unfold BorshAccountsCoder.decodeUnchecked
    simp only [hunreg]
  · rfl

/-! ### Concrete fixtures for witnesses and counterexamples -/

/-- A toy single-byte layout: a number below 256 round-trips. -/
def counterLayout : Layout Nat :=
  ⟨fun n => [n % 256],
   fun bs => match bs with
     | [b] => some b
     | _ => none⟩

/-- A layout whose body size is the value itself, to exercise the
scratch-buffer limit. -/
def bigLayout : Layout Nat :=
  ⟨fun n => List.replicate n 7, fun _ => none⟩

/-- A legacy (no `layoutVersion`) IDL with two account types. -/
def legacyIdl : Idl Nat :=
  ⟨some [("counter", counterLayout), ("big", bigLayout)], none⟩

/-- A versioned IDL with the same two account types. -/
def versionedIdl : Idl Nat :=
  ⟨some [("counter", counterLayout), ("big", bigLayout)], some 0⟩

/-- A legacy IDL declaring an empty list of account types. -/
def emptyIdl : Idl Nat := ⟨some [], none⟩

/-- An IDL with no `accounts` field at all. -/
def absentIdl : Idl Nat := ⟨none, none⟩

/-! ### The claims -/

/-- Claim C1: for every registered account type and every value whose
layout round-trips, decoding an encoded record returns the value:
`decode(T, encode(T, v)) = v` whenever `encode` succeeds. -/
theorem C1_roundtrip {V : Type} (idl : Idl V) (name : String)
    (l : Layout V) (v : V) (bytes : List Nat)
    (hl : mapGet (BorshAccountsCoder.ofIdl idl).accountLayouts name = some l)
    (hrt : l.decode (l.encode v) = some v)
    (henc : (BorshAccountsCoder.ofIdl idl).encode name v = .ok bytes) :
    (BorshAccountsCoder.ofIdl idl).decode name bytes = .ok v := by
  unfold BorshAccountsCoder.encode at henc
  simp only [hl] at henc
  by_cases hlen : 1000 < (l.encode v).length
  · rw [if_pos hlen] at henc
    exact absurd henc (fun h => Except.noConfusion h)
  · rw [if_neg hlen] at henc
    cases hh : (BorshAccountsCoder.ofIdl idl).header with
    | none =>
      rw [hh] at henc
      exact absurd henc (fun h => Except.noConfusion h)
    | some hd =>
      rw [hh] at henc
      have hbytes : bytes = hd.encode name none ++ l.encode v :=
        (Except.ok.inj henc).symm
      subst hbytes
      unfold BorshAccountsCoder.decode
      simp only [hh]
      rw [parse_headerEncode hd name none (l.encode v), if_pos rfl]
      unfold BorshAccountsCoder.decodeUnchecked
      simp only [hl, drop_headerEncode, hrt]

/-- Claim C1 witness: a concrete legacy coder with a one-byte counter
layout round-trips the value 42. -/
theorem C1_roundtrip_witness :
    mapGet (BorshAccountsCoder.ofIdl legacyIdl).accountLayouts "counter" =
      some counterLayout ∧
    counterLayout.decode (counterLayout.encode 42) = some 42 ∧
    (BorshAccountsCoder.ofIdl legacyIdl).encode "counter" 42 =
      .ok ((BorshAccountHeader.mk legacyIdl).encode "counter" none ++ [42]) ∧
    (BorshAccountsCoder.ofIdl legacyIdl).decode "counter"
        ((BorshAccountHeader.mk legacyIdl).encode "counter" none ++ [42]) =
      .ok 42 :=
  ⟨rfl, rfl, rfl,
   C1_roundtrip legacyIdl "counter" counterLayout 42
     ((BorshAccountHeader.mk legacyIdl).encode "counter" none ++ [42])
     rfl rfl rfl⟩

/-- Claim C2: the encoded header is always exactly 8 bytes; the legacy
header is the 8-byte discriminator itself, and the versioned header is
two zero bytes, the 4-byte discriminator, then two zero bytes. -/
theorem C2_header_bytes {V : Type} (idl : Idl V) (name : String)
    (ns : Option String) :
    ((BorshAccountHeader.mk idl).encode name ns).length = 8 ∧
    (idl.layoutVersion = none →
      (BorshAccountHeader.mk idl).encode name ns =
        (BorshAccountHeader.mk idl).discriminator name ns ∧
      ((BorshAccountHeader.mk idl).discriminator name ns).length = 8) ∧
    (idl.layoutVersion ≠ none →
      (BorshAccountHeader.mk idl).encode name ns =
        [0, 0] ++ (BorshAccountHeader.mk idl).discriminator name ns ++ [0, 0] ∧
      ((BorshAccountHeader.mk idl).discriminator name ns).length = 4) := by
  refine ⟨headerEncode_length _ name ns, fun hv => ⟨?_, ?_⟩, fun hv => ?_⟩
  · simp [BorshAccountHeader.encode, hv]
  · rw [discriminator_length]
    exact discriminatorSize_legacy _ hv
  · match hver : idl.layoutVersion with
    | none => exact absurd hver hv
    | some ver =>
      refine ⟨?_, ?_⟩
      · simp [BorshAccountHeader.encode, hver]
      · rw [discriminator_length]
        exact discriminatorSize_versioned _ ver hver

/-- Claim C2 witness: header sizes and the versioned header shape on a
concrete name in both concrete formats. -/
theorem C2_header_bytes_witness :
    ((BorshAccountHeader.mk legacyIdl).encode "counter" none).length = 8 ∧
    ((BorshAccountHeader.mk versionedIdl).encode "counter" none).length = 8 ∧
    (BorshAccountHeader.mk versionedIdl).encode "counter" none =
      [0, 0] ++ (BorshAccountHeader.mk versionedIdl).discriminator "counter" none ++
        [0, 0] :=
  ⟨(C2_header_bytes legacyIdl "counter" none).1,
   (C2_header_bytes versionedIdl "counter" none).1,
   ((C2_header_bytes versionedIdl "counter" none).2.2
     (fun h => Option.noConfusion h)).1⟩

set_option maxRecDepth 100000 in
/-- Claim C3 counterexample: on a coder whose registry is empty,
decoding the unregistered name `"foo"` from eight zero bytes fails with
the discriminator-mismatch error, not the unknown-type error the claim
requires for every input. -/
theorem C3_decode_unknown_counterexample :
    (BorshAccountsCoder.ofIdl emptyIdl).decode "foo" (List.replicate 8 0) =
      .error .invalidDiscriminator ∧
    (BorshAccountsCoder.ofIdl emptyIdl).decode "foo" (List.replicate 8 0) ≠
      .error (.unknownAccount "foo") := by
  decide

/-- Claim C3 (amended): for an unregistered name, `decode` fails with
the unknown-type error only when the input's parsed discriminator
equals the name's expected discriminator; otherwise the discriminator
check fires first and it fails with the discriminator-mismatch error. -/
theorem C3_decode_unknown {V : Type} (idl : Idl V)
    (accs : List (String × Layout V)) (hacc : idl.accounts = some accs)
    (name : String) (data : List Nat) (hunreg : mapGet accs name = none) :
    (BorshAccountsCoder.ofIdl idl).decode name data =
      (if (BorshAccountHeader.mk idl).discriminator name none =
          (BorshAccountHeader.mk idl).parseDiscriminator data
       then .error (.unknownAccount name)
       else .error .invalidDiscriminator) :=
  decode_unregistered idl accs hacc name data hunreg

/-- Claim C3 witness: the amended statement evaluated on the empty
registry, the name `"foo"` and eight zero bytes. -/
theorem C3_decode_unknown_witness :
    emptyIdl.accounts = some [] ∧
    mapGet ([] : List (String × Layout Nat)) "foo" = none ∧
    (BorshAccountsCoder.ofIdl emptyIdl).decode "foo" (List.replicate 8 0) =
      (if (BorshAccountHeader.mk emptyIdl).discriminator "foo" none =
          (BorshAccountHeader.mk emptyIdl).parseDiscriminator
            (List.replicate 8 0)
       then .error (.unknownAccount "foo")
       else .error .invalidDiscriminator) :=
  ⟨rfl, rfl, C3_decode_unknown emptyIdl [] rfl "foo" (List.replicate 8 0) rfl⟩

/-- Claim C4: `parseDiscriminator` performs no length check — on inputs
shorter than 8 bytes it returns the truncated slice instead of
signalling malformed input as the specification requires. The legacy
parser returns the whole short input; the versioned parser returns what
is left of bytes 2..6. -/
theorem C4_parse_truncated :
    (BorshAccountHeader.mk emptyIdl).parseDiscriminator [] = [] ∧
    (BorshAccountHeader.mk emptyIdl).parseDiscriminator [1, 2, 3] = [1, 2, 3] ∧
    (BorshAccountHeader.mk versionedIdl).parseDiscriminator [1, 2, 3] = [3] :=
  ⟨rfl, rfl, rfl⟩

/-- Claim C5 counterexample: `memcmp` of the unregistered name `"foo"`
on an empty-registry coder succeeds — it does not fail with the
unknown-type error the claim requires. -/
theorem C5_memcmp_unknown_counterexample :
    (BorshAccountsCoder.ofIdl emptyIdl).memcmp "foo" ≠
      .error (.unknownAccount "foo") ∧
    ((BorshAccountsCoder.ofIdl emptyIdl).memcmp "foo").isOk = true := by
  refine ⟨fun h => ?_, rfl⟩
  have h2 : (Except.ok ⟨0, bs58encode
      ((BorshAccountHeader.mk emptyIdl).discriminator "foo" none)⟩ :
        Except CoderError MemcmpFilter) = .error (.unknownAccount "foo") := h
  exact Except.noConfusion h2

/-- Claim C5 (amended): `memcmp` never consults the registry — for
every name, registered or not, it returns the descriptor whose offset
is `discriminatorOffset()` and whose bytes are the base58 encoding of
the name's discriminator (provided the coder's header was
initialized, i.e. the IDL has an accounts list). -/
theorem C5_memcmp_descriptor {V : Type} (idl : Idl V)
    (accs : List (String × Layout V)) (hacc : idl.accounts = some accs)
    (name : String) :
    (BorshAccountsCoder.ofIdl idl).memcmp name =
      .ok ⟨(BorshAccountHeader.mk idl).discriminatorOffset,
           bs58encode ((BorshAccountHeader.mk idl).discriminator name none)⟩ := by
  unfold BorshAccountsCoder.memcmp BorshAccountsCoder.ofIdl
  rw [hacc]

/-- Claim C5 witness: the amended statement evaluated on the empty
registry and the unregistered name `"bar"`. -/
theorem C5_memcmp_descriptor_witness :
    emptyIdl.accounts = some [] ∧
    (BorshAccountsCoder.ofIdl emptyIdl).memcmp "bar" =
      .ok ⟨(BorshAccountHeader.mk emptyIdl).discriminatorOffset,
           bs58encode ((BorshAccountHeader.mk emptyIdl).discriminator "bar" none)⟩ :=
  ⟨rfl, C5_memcmp_descriptor emptyIdl [] rfl "bar"⟩

/-- Claim C6: the discriminator is the truncated SHA-256 digest of
`"<namespace>:<PascalCase name>"` with namespace defaulting to
`"account"` — 8 bytes legacy, 4 bytes versioned — and it is
deterministic: any instance built from a schema with the same format
marker yields byte-identical discriminators. -/
theorem C6_discriminator_digest {V : Type} (idl idl2 : Idl V)
    (name : String) (ns : Option String)
    (hsame : idl2.layoutVersion = idl.layoutVersion) :
    (BorshAccountHeader.mk idl).discriminator name ns =
      (sha256Ascii ((ns.getD "account") ++ ":" ++ camelcasePascal name)).take
        (BorshAccountHeader.mk idl).discriminatorSize ∧
    (idl.layoutVersion = none →
      (BorshAccountHeader.mk idl).discriminatorSize = 8) ∧
    (idl.layoutVersion ≠ none →
      (BorshAccountHeader.mk idl).discriminatorSize = 4) ∧
    ((BorshAccountHeader.mk idl).discriminator name ns).length =
      (BorshAccountHeader.mk idl).discriminatorSize ∧
    (BorshAccountHeader.mk idl2).discriminator name ns =
      (BorshAccountHeader.mk idl).discriminator name ns := by
  refine ⟨rfl, fun hv => discriminatorSize_legacy _ hv, fun hv => ?_,
    discriminator_length _ name ns, ?_⟩
  · match hver : idl.layoutVersion with
    | none => exact absurd hver hv
    | some ver => exact discriminatorSize_versioned _ ver hver
  · unfold BorshAccountHeader.discriminator BorshAccountHeader.discriminatorSize
    rw [hsame]

/-- Claim C6 witness: determinism across two distinct legacy schemas
and the digest equation, on a concrete name. -/
theorem C6_discriminator_digest_witness :
    emptyIdl.layoutVersion = legacyIdl.layoutVersion ∧
    (BorshAccountHeader.mk legacyIdl).discriminator "counter" none =
      (sha256Ascii ("account" ++ ":" ++ camelcasePascal "counter")).take
        (BorshAccountHeader.mk legacyIdl).discriminatorSize ∧
    (BorshAccountHeader.mk emptyIdl).discriminator "counter" none =
      (BorshAccountHeader.mk legacyIdl).discriminator "counter" none :=
  ⟨rfl,
   (C6_discriminator_digest legacyIdl emptyIdl "counter" none rfl).1,
   (C6_discriminator_digest legacyIdl emptyIdl "counter" none rfl).2.2.2.2⟩

/-- Claim C7: `decodeUnchecked` strips exactly the first 8 bytes and
decodes the remainder with the registered layout, fails with the
unknown-type error on unregistered names, and never fails on
discriminator grounds (so bytes encoded for another type are never
rejected for their discriminator). -/
theorem C7_decodeUnchecked_shape {V : Type} (idl : Idl V) (name : String)
    (bytes : List Nat) :
    (BorshAccountsCoder.ofIdl idl).decodeUnchecked name bytes =
      (match mapGet (BorshAccountsCoder.ofIdl idl).accountLayouts name with
       | none => .error (.unknownAccount name)
       | some l =>
         match l.decode (bytes.drop 8) with
         | none => .error .layoutFailure
         | some v => .ok v) ∧
    (BorshAccountsCoder.ofIdl idl).decodeUnchecked name bytes ≠
      .error .invalidDiscriminator := by
  constructor
  · rfl
  · unfold BorshAccountsCoder.decodeUnchecked
    cases hm : mapGet (BorshAccountsCoder.ofIdl idl).accountLayouts name with
    | none => simp [hm]
    | some l =>
      cases hdec : l.decode (List.drop BorshAccountHeader.size bytes) with
      | none => simp [hm, hdec]
      | some v => simp [hm, hdec]

/-- Claim C8 counterexample: a coder built from an IDL with no
accounts field constructs successfully, but `decode` then fails with
the JS `TypeError` on the unassigned header field — not with the
unknown-type error the claim requires of every name-taking operation. -/
theorem C8_zero_accounts_counterexample :
    (BorshAccountsCoder.ofIdl absentIdl).decode "bar" [] = .error .typeError ∧
    (BorshAccountsCoder.ofIdl absentIdl).decode "bar" [] ≠
      .error (.unknownAccount "bar") := by
  refine ⟨rfl, fun h => ?_⟩
  have h2 : (Except.error CoderError.typeError : Except CoderError Nat) =
      .error (.unknownAccount "bar") := h
  exact CoderError.noConfusion (Except.error.inj h2)

/-- Claim C8 (amended): construction from a schema with zero account
types succeeds in both zero-type forms; `encode` and `decodeUnchecked`
then report the unknown-type error for every name. `decode` and
`memcmp` do not: with the accounts field absent both hit the
uninitialized header (TypeError), and with an empty accounts list
`memcmp` succeeds while `decode` reports a discriminator mismatch
unless the data happens to carry the name's own discriminator. -/
theorem C8_zero_accounts {V : Type} (lv : Option Nat) (name : String)
    (data : List Nat) (v : V) :
    (BorshAccountsCoder.ofIdl (⟨none, lv⟩ : Idl V)).encode name v =
      .error (.unknownAccount name) ∧
    (BorshAccountsCoder.ofIdl (⟨some [], lv⟩ : Idl V)).encode name v =
      .error (.unknownAccount name) ∧
    (BorshAccountsCoder.ofIdl (⟨none, lv⟩ : Idl V)).decodeUnchecked name data =
      .error (.unknownAccount name) ∧
    (BorshAccountsCoder.ofIdl (⟨some [], lv⟩ : Idl V)).decodeUnchecked name data =
      .error (.unknownAccount name) ∧
    (BorshAccountsCoder.ofIdl (⟨none, lv⟩ : Idl V)).decode name data =
      .error .typeError ∧
    (BorshAccountsCoder.ofIdl (⟨none, lv⟩ : Idl V)).memcmp name =
      .error .typeError ∧
    ((BorshAccountsCoder.ofIdl (⟨some [], lv⟩ : Idl V)).memcmp name).isOk = true ∧
    (BorshAccountsCoder.ofIdl (⟨some [], lv⟩ : Idl V)).decode name data =
      (if (BorshAccountHeader.mk (⟨some [], lv⟩ : Idl V)).discriminator name none =
          (BorshAccountHeader.mk (⟨some [], lv⟩ : Idl V)).parseDiscriminator data
       then .error (.unknownAccount name)
       else .error .invalidDiscriminator) :=
  ⟨rfl, rfl, rfl, rfl, rfl, rfl, rfl,
   decode_unregistered ⟨some [], lv⟩ [] rfl name data rfl⟩

/-- Claim C9: the names `"myAccount"` and `"MyAccount"` canonicalize to
the same Pascal-case form, so their discriminators are byte-identical
in every format and namespace. -/
theorem C9_canonical_names {V : Type} (idl : Idl V) (ns : Option String) :
    camelcasePascal "myAccount" = camelcasePascal "MyAccount" ∧
    (BorshAccountHeader.mk idl).discriminator "myAccount" ns =
      (BorshAccountHeader.mk idl).discriminator "MyAccount" ns := by
  have hc : camelcasePascal "myAccount" = camelcasePascal "MyAccount" := by decide
  refine ⟨hc, ?_⟩
  unfold BorshAccountHeader.discriminator
  rw [hc]

/-- Claim C10: `encode` serializes into a fixed 1000-byte scratch
buffer: a registered type whose body exceeds 1000 bytes makes `encode`
fail, and a body of at most 1000 bytes yields exactly header ++ body,
with no padding. -/
theorem C10_scratch_buffer {V : Type} (idl : Idl V)
    (accs : List (String × Layout V)) (hacc : idl.accounts = some accs)
    (name : String) (l : Layout V) (v : V)
    (hreg : mapGet accs name = some l) :
    (BorshAccountsCoder.ofIdl idl).encode name v =
      (if 1000 < (l.encode v).length then .error .bufferOverflow
       else .ok ((BorshAccountHeader.mk idl).encode name none ++ l.encode v)) := by
  unfold BorshAccountsCoder.encode BorshAccountsCoder.ofIdl
  rw [hacc]
  simp only [hreg]

/-- Claim C10 witness: on a concrete legacy coder, a 1001-byte body
fails with the buffer overrun while a 1-byte body returns header ++
body exactly. -/
theorem C10_scratch_buffer_witness :
    legacyIdl.accounts = some [("counter", counterLayout), ("big", bigLayout)] ∧
    mapGet [("counter", counterLayout), ("big", bigLayout)] "big" =
      some bigLayout ∧
    mapGet [("counter", counterLayout), ("big", bigLayout)] "counter" =
      some counterLayout ∧
    (BorshAccountsCoder.ofIdl legacyIdl).encode "big" 1001 =
      .error .bufferOverflow ∧
    (BorshAccountsCoder.ofIdl legacyIdl).encode "counter" 42 =
      .ok ((BorshAccountHeader.mk legacyIdl).encode "counter" none ++ [42]) :=
  ⟨rfl, rfl, rfl,
   (C10_scratch_buffer legacyIdl _ rfl "big" bigLayout 1001 rfl).trans
     (by norm_num [bigLayout]),
   (C10_scratch_buffer legacyIdl _ rfl "counter" counterLayout 42 rfl).trans
     (by norm_num [counterLayout])⟩

end Anchor
